import Mathlib

/-!
Verification development for the Greenlight policy optimizer (`src/app.py`).

The program is a small interactive calculator built from three pieces of
logic: a present-value formula `pv_stream`, a pandas aggregation pipeline
`compute_policy_scores`, and a closed-form two-period depletable-resource
solver.  This file gives a shallow embedding of those three pieces and
proves the spec's claims about them.

Modelling conventions:
* Python floats are modelled by `ℚ` (reals with exact arithmetic; IEEE
  rounding, overflow and underflow are not modelled).  A float *cell* that
  may be NaN is `Option ℚ` with `none` as NaN.
* A Python expression that can raise `ZeroDivisionError` is modelled in the
  `Option` monad, `none` being the uncaught exception.
* The `Policy` label column is modelled generically over a linearly ordered
  type `π` with decidable equality (the app uses strings; pandas groups and
  sorts keys by their order).
* `pandas.DataFrame.sort_values` is modelled by a stable sort
  (`List.insertionSort`); the small frames produced here are below numpy's
  introsort cutoff, where the sort used by pandas is a stable insertion sort.
-/

set_option linter.unusedSectionVars false

namespace Greenlight

/-- Model of a Python `float` value: `none` is NaN (e.g. the result of
coercing a non-numeric entry), `some q` an ordinary number. -/
abbrev PyFloat := Option ℚ

/-- Python `/` on plain rationals: raises `ZeroDivisionError` (modelled as
`none`) when the divisor is zero. -/
def pyDivQ (x y : ℚ) : Option ℚ :=
  if y = 0 then none else some (x / y)

/-- Python `/` on float cells: raises `ZeroDivisionError` (the outer `none`)
whenever the divisor is the number 0 — even with a NaN numerator — and
otherwise propagates NaN. -/
def pyDiv (x y : PyFloat) : Option PyFloat :=
  if y = some 0 then none
  else match x, y with
    | some a, some b => some (some (a / b))
    | _, _ => some none

/-- Python `+` on float cells: NaN-propagating addition. -/
def pyAdd (x y : PyFloat) : PyFloat :=
  match x, y with
  | some a, some b => some (a + b)
  | _, _ => none

/-- Python `*` on float cells: NaN-propagating multiplication (this is also
what the elementwise pandas product on float columns does). -/
def pyMul (x y : PyFloat) : PyFloat :=
  match x, y with
  | some a, some b => some (a * b)
  | _, _ => none

/-- One term of the generator on line 13: `B[i] / ((1 + r) ** i)`. -/
def pvTerm (B : List PyFloat) (r : ℚ) (i : Nat) : Option PyFloat :=
  pyDiv (B.getD i (some 0)) (some ((1 + r) ^ i))

/-- One step of Python's `sum` over that generator: add the `i`-th term to
the accumulator, propagating an exception. -/
def pvStep (B : List PyFloat) (r : ℚ) (acc : Option PyFloat) (i : Nat) : Option PyFloat := do
  let s ← acc
  let t ← pvTerm B r i
  pure (pyAdd s t)

/-- Lines 11–13 of src/app.py:

    def pv_stream(B, r):
        return float(sum(B[i] / ((1 + r) ** i) for i in range(len(B))))

The rate `r` is an ordinary number (the app passes slider / number-input
values, never NaN).  The elements of `B` may be NaN.  Summation is a left
fold starting from 0, exactly as Python's `sum` over the generator; a
`ZeroDivisionError` in any term (possible only when `1 + r = 0` and the
stream has a term of positive index) aborts the whole sum. -/
def pv_stream (B : List PyFloat) (r : ℚ) : Option PyFloat :=
  (List.range B.length).foldl (pvStep B r) (some (some 0))

/-- An entry of the editable table: a number, a missing value (NaN), or a
non-numeric entry that `pd.to_numeric` cannot parse (numeric strings, which
`pd.to_numeric` does parse, are modelled as `num`). -/
inductive Cell where
  | num : ℚ → Cell
  | nan : Cell
  | txt : String → Cell
deriving DecidableEq

/-- Model of `pd.to_numeric(column, errors="coerce")` on one cell: numbers
pass through, everything non-numeric becomes NaN instead of raising. -/
def to_numeric : Cell → Cell
  | Cell.num q => Cell.num q
  | _ => Cell.nan

/-- Read a float-typed cell as a float value.  In the source every column is
coerced (or freshly computed) before it is read numerically, so the `txt`
case does not arise there; it is mapped to NaN. -/
def cellFloat : Cell → PyFloat
  | Cell.num q => some q
  | _ => none

/-- Store a computed float value back into a cell. -/
def cellOf : PyFloat → Cell
  | some q => Cell.num q
  | none => Cell.nan

/-- The two input modes of the Policy Optimizer tab (line 45–49). -/
inductive Mode where
  | direct
  | stream
deriving DecidableEq

/-- One row of the policy/outcome table.  `Weighted_PV_TNB = none` means
the column is not present (the input table has no such column; line 27
creates it on the working copy). -/
structure FRow (π : Type) where
  Policy : π
  Outcome : String
  Prob : Cell
  PV_TNB : Cell
  B0 : Cell
  B1 : Cell
  B2 : Cell
  B3 : Cell
  Weighted_PV_TNB : Option Cell := none
deriving DecidableEq

variable {π : Type} [DecidableEq π] [LinearOrder π]

/-- Line 19: `work["PV_TNB"] = pd.to_numeric(work["PV_TNB"], errors="coerce")`. -/
def coerce_PV_TNB (t : List (FRow π)) : List (FRow π) :=
  t.map (fun row => { row with PV_TNB := to_numeric row.PV_TNB })

/-- Lines 22–23: coerce the four stream columns B0..B3. -/
def coerce_B (t : List (FRow π)) : List (FRow π) :=
  t.map (fun row =>
    { row with B0 := to_numeric row.B0, B1 := to_numeric row.B1,
               B2 := to_numeric row.B2, B3 := to_numeric row.B3 })

/-- The lambda of line 24: `pv_stream([row["B0"], row["B1"], row["B2"], row["B3"]], r)`. -/
def pvRow (row : FRow π) (r : ℚ) : Option PyFloat :=
  pv_stream [cellFloat row.B0, cellFloat row.B1, cellFloat row.B2, cellFloat row.B3] r

/-- Line 24: `work["PV_TNB"] = work.apply(lambda row: pv_stream(...), axis=1)`.
An exception in any row propagates out of the whole `apply`. -/
def assign_PV_TNB : List (FRow π) → ℚ → Option (List (FRow π))
  | [], _ => some []
  | row :: rest, r => do
    let v ← pvRow row r
    let rest' ← assign_PV_TNB rest r
    pure ({ row with PV_TNB := cellOf v } :: rest')

/-- Line 26: `work["Prob"] = pd.to_numeric(work["Prob"], errors="coerce")`. -/
def coerce_Prob (t : List (FRow π)) : List (FRow π) :=
  t.map (fun row => { row with Prob := to_numeric row.Prob })

/-- Line 27: `work["Weighted_PV_TNB"] = work["Prob"] * work["PV_TNB"]`. -/
def assign_Weighted (t : List (FRow π)) : List (FRow π) :=
  t.map (fun row =>
    { row with
        Weighted_PV_TNB :=
          some (cellOf (pyMul (cellFloat row.Prob) (cellFloat row.PV_TNB))) })

/-- A pandas column sum (`Series.sum`, also the per-group `"sum"` of
`GroupBy.agg` with its defaults `skipna=True, min_count=0`): NaN entries are
skipped, and an empty or all-NaN column sums to 0 — not to NaN. -/
def nansum (l : List PyFloat) : ℚ :=
  (l.filterMap id).sum

/-- One row of the `scores` table computed on lines 29–36. -/
structure ScoreRow (π : Type) where
  Policy : π
  PV_ETNB : ℚ
  Prob_Sum : ℚ
  Rank : Nat
deriving DecidableEq

/-- The rows of `t` belonging to policy `p` (one group of the groupby). -/
def groupRows (t : List (FRow π)) (p : π) : List (FRow π) :=
  t.filter (fun row => decide (row.Policy = p))

/-- The `Weighted_PV_TNB` value of a row, as a float (when the aggregation
reads it, line 27 has already created the column on every row). -/
def wval (row : FRow π) : PyFloat :=
  cellFloat (row.Weighted_PV_TNB.getD Cell.nan)

/-- Lines 30–32: the named aggregation for one policy key.  `Rank` is only
assigned on line 36; 0 is the not-yet-assigned placeholder. -/
def aggRow (t : List (FRow π)) (p : π) : ScoreRow π :=
  { Policy := p
    PV_ETNB := nansum ((groupRows t p).map wval)
    Prob_Sum := nansum ((groupRows t p).map (fun row => cellFloat row.Prob))
    Rank := 0 }

/-- Line 30: `groupby("Policy", as_index=False)` with the default
`sort=True`: the distinct policy keys, in ascending key order. -/
def groupKeys (t : List (FRow π)) : List π :=
  List.insertionSort (· ≤ ·) (t.map FRow.Policy).dedup

/-- The comparison of line 33, `sort_values("PV_ETNB", ascending=False)`:
`x` may stay before `y` iff `y.PV_ETNB ≤ x.PV_ETNB`. -/
def descPV (x y : ScoreRow π) : Prop :=
  y.PV_ETNB ≤ x.PV_ETNB

instance : DecidableRel (@descPV π) :=
  fun x y => inferInstanceAs (Decidable (y.PV_ETNB ≤ x.PV_ETNB))

instance : IsTotal (ScoreRow π) (@descPV π) :=
  ⟨fun a b => le_total b.PV_ETNB a.PV_ETNB⟩

instance : IsTrans (ScoreRow π) (@descPV π) :=
  ⟨fun _ _ _ h1 h2 => le_trans h2 h1⟩

/-- Lines 29–32: the table after `groupby("Policy").agg(...)` — one row per
distinct policy, in ascending key order. -/
def aggregated (t : List (FRow π)) : List (ScoreRow π) :=
  (groupKeys t).map (aggRow t)

/-- Line 33: `sort_values("PV_ETNB", ascending=False)` (stable model). -/
def sortedScores (t : List (FRow π)) : List (ScoreRow π) :=
  List.insertionSort descPV (aggregated t)

/-- Lines 29–36: group by policy, aggregate, sort descending by `PV_ETNB`,
re-index (`reset_index(drop=True)`), and add the `Rank` column
`np.arange(1, len(scores) + 1)`. -/
def scoresOf (t : List (FRow π)) : List (ScoreRow π) :=
  (sortedScores t).enum.map (fun p => { p.2 with Rank := p.1 + 1 })

/-- Lines 15–37, `compute_policy_scores(df, r, mode)` as a function of the
input table's value.  The branch on `mode` is lines 18–24, then Prob
coercion (26), the weighted column (27), the scores table (29–36), and the
returned pair `scores, work` (37).  `none` models an uncaught
`ZeroDivisionError` escaping the call (possible only in stream mode with
`1 + r = 0`; the app's slider keeps `r` in [0, 0.3]). -/
def compute_policy_scores (df : List (FRow π)) (r : ℚ) (mode : Mode) :
    Option (List (ScoreRow π) × List (FRow π)) := do
  let work := df
  let work1 ← match mode with
    | Mode.direct => some (coerce_PV_TNB work)
    | Mode.stream => assign_PV_TNB (coerce_B work) r
  let work2 := assign_Weighted (coerce_Prob work1)
  pure (scoresOf work2, work2)

/-- A DataFrame value on the heap. -/
abbrev Frame (π : Type) := List (FRow π)

/-- The heap of DataFrame objects; a reference is an index into it. -/
abbrev Heap (π : Type) := List (Frame π)

/-- In-place update of the frame an existing reference points to (what a
pandas column assignment `obj[col] = ...` does to the object `obj`). -/
def hmod (h : Heap π) (i : Nat) (f : Frame π → Frame π) : Heap π :=
  h.set i (f (h.getD i []))

/-- Lines 15–37 again, now with the DataFrame objects living on a heap so
that aliasing is visible: `work = df.copy()` (line 16) allocates a fresh
object holding a copy of `df`'s value, and every column assignment mutates
the `work` object in place.  Returns the heap after the call, the scores
table and the reference to `work`. -/
def compute_policy_scores_heap (h : Heap π) (dfRef : Nat) (r : ℚ) (mode : Mode) :
    Option (Heap π × List (ScoreRow π) × Nat) := do
  let workRef := h.length
  let h0 := h ++ [h.getD dfRef []]
  let h1 ← match mode with
    | Mode.direct => some (hmod h0 workRef coerce_PV_TNB)
    | Mode.stream =>
      let h' := hmod h0 workRef coerce_B
      match assign_PV_TNB (h'.getD workRef []) r with
      | none => none
      | some t => some (h'.set workRef t)
  let h2 := hmod h1 workRef coerce_Prob
  let h3 := hmod h2 workRef assign_Weighted
  pure (h3, scoresOf (h3.getD workRef []), workRef)

/-- The outputs the resource-solver tab derives and displays when `b > 0`:
`q1*, q2*, P1*, P2*` (lines 139–142) and the two sides of the self-check
caption (lines 149–150). -/
structure SolverOut where
  q1 : ℚ
  q2 : ℚ
  P1 : ℚ
  P2 : ℚ
  lhs : ℚ
  rhs : ℚ
deriving DecidableEq

/-- Result of the resource-solver tab: the `st.error("b must be > 0")`
branch (which produces no solution outputs), or the solution outputs. -/
inductive SolverRes where
  | err : SolverRes
  | ok : SolverOut → SolverRes
deriving DecidableEq

/-- Lines 136–151, the two-period depletable resource solver:

    if b <= 0: st.error("b must be > 0")
    else:
        q1 = (r3 * (a - mc) + b * Q) / (b * (2 + r3))
        q2 = Q - q1
        P1 = a - b * q1
        P2 = a - b * q2
        lhs = (P1 - mc)
        rhs = (P2 - mc) / (1 + r3)

`none` models an uncaught `ZeroDivisionError` (possible in the else branch
when `2 + r = 0` or `1 + r = 0`; the `r` input field has no lower bound). -/
def resource_solver (a b mc r Q : ℚ) : Option SolverRes :=
  if b ≤ 0 then some SolverRes.err
  else do
    let q1 ← pyDivQ (r * (a - mc) + b * Q) (b * (2 + r))
    let q2 := Q - q1
    let P1 := a - b * q1
    let P2 := a - b * q2
    let lhs := P1 - mc
    let rhs ← pyDivQ (P2 - mc) (1 + r)
    pure (SolverRes.ok ⟨q1, q2, P1, P2, lhs, rhs⟩)

/-- The tie-break order actually produced by the code: strictly larger
`PV_ETNB` first, ties in strictly ascending `Policy`-key order. -/
def tieQ (x y : ScoreRow π) : Prop :=
  y.PV_ETNB < x.PV_ETNB ∨ (y.PV_ETNB = x.PV_ETNB ∧ x.Policy < y.Policy)

/-! ### Concrete tables used by the claim theorems, witnesses and
counterexamples (policy labels instantiated with natural numbers) -/

/-- Two policies, one outcome each with probability 1: PV(TNB) 50 for
policy 1 and 30 for policy 2. -/
def tableC2 : List (FRow Nat) :=
  [⟨1, "E", Cell.num 1, Cell.num 50, Cell.nan, Cell.nan, Cell.nan, Cell.nan, none⟩,
   ⟨2, "E", Cell.num 1, Cell.num 30, Cell.nan, Cell.nan, Cell.nan, Cell.nan, none⟩]

/-- The scores table the program computes for `tableC2`. -/
def scoresC2 : List (ScoreRow Nat) :=
  [⟨1, 50, 1, 1⟩, ⟨2, 30, 1, 2⟩]

/-- The working table the program computes for `tableC2`. -/
def workC2 : List (FRow Nat) :=
  [⟨1, "E", Cell.num 1, Cell.num 50, Cell.nan, Cell.nan, Cell.nan, Cell.nan, some (Cell.num 50)⟩,
   ⟨2, "E", Cell.num 1, Cell.num 30, Cell.nan, Cell.nan, Cell.nan, Cell.nan, some (Cell.num 30)⟩]

/-- One policy (key 7) with two outcome rows, one of which has a
non-numeric `Prob` entry. -/
def tableC5 : List (FRow Nat) :=
  [⟨7, "E", Cell.txt "x", Cell.num 10, Cell.nan, Cell.nan, Cell.nan, Cell.nan, none⟩,
   ⟨7, "F", Cell.num (1 / 2), Cell.num 10, Cell.nan, Cell.nan, Cell.nan, Cell.nan, none⟩]

/-- Two tied policies (both PV(ETNB) 7), policy 2 appearing first in the
input table. -/
def tableC6 : List (FRow Nat) :=
  [⟨2, "E", Cell.num 1, Cell.num 7, Cell.nan, Cell.nan, Cell.nan, Cell.nan, none⟩,
   ⟨1, "E", Cell.num 1, Cell.num 7, Cell.nan, Cell.nan, Cell.nan, Cell.nan, none⟩]

/-- The scores table the program computes for `tableC6`. -/
def scoresC6 : List (ScoreRow Nat) :=
  [⟨1, 7, 1, 1⟩, ⟨2, 7, 1, 2⟩]

/-- The working table the program computes for `tableC6`. -/
def workC6 : List (FRow Nat) :=
  [⟨2, "E", Cell.num 1, Cell.num 7, Cell.nan, Cell.nan, Cell.nan, Cell.nan, some (Cell.num 7)⟩,
   ⟨1, "E", Cell.num 1, Cell.num 7, Cell.nan, Cell.nan, Cell.nan, Cell.nan, some (Cell.num 7)⟩]

/-- Two policies (keys 4 and 2) whose numeric entries are all non-numeric
or missing, so every aggregate is computed from skipped values. -/
def tableC9 : List (FRow Nat) :=
  [⟨4, "E", Cell.txt "p", Cell.txt "q", Cell.nan, Cell.nan, Cell.nan, Cell.nan, none⟩,
   ⟨2, "E", Cell.nan, Cell.nan, Cell.nan, Cell.nan, Cell.nan, Cell.nan, none⟩]

/-- The scores table the program computes for `tableC9`. -/
def scoresC9 : List (ScoreRow Nat) :=
  [⟨2, 0, 0, 1⟩, ⟨4, 0, 0, 2⟩]

/-- The working table the program computes for `tableC9`. -/
def workC9 : List (FRow Nat) :=
  [⟨4, "E", Cell.nan, Cell.nan, Cell.nan, Cell.nan, Cell.nan, Cell.nan, some Cell.nan⟩,
   ⟨2, "E", Cell.nan, Cell.nan, Cell.nan, Cell.nan, Cell.nan, Cell.nan, some Cell.nan⟩]

/-- A one-row session frame for the heap model. -/
def frameC10 : Frame Nat :=
  [⟨1, "E", Cell.num 1, Cell.num 2, Cell.nan, Cell.nan, Cell.nan, Cell.nan, none⟩]

/-- The heap after calling `compute_policy_scores` on a heap holding only
`frameC10`: the session frame at reference 0 is untouched and the working
copy lives at reference 1. -/
def heapC10out : Heap Nat :=
  [frameC10,
   [⟨1, "E", Cell.num 1, Cell.num 2, Cell.nan, Cell.nan, Cell.nan, Cell.nan, some (Cell.num 2)⟩]]

/-! ### Lemmas about `pv_stream` -/

lemma getD_map_some (B : List ℚ) (i : Nat) :
    (B.map some).getD i (some 0) = some (B.getD i 0) := by
  simp only [List.getD_eq_getElem?_getD, List.getElem?_map]
  cases B[i]? <;> simp

lemma pvTerm_map_some (B : List ℚ) (r : ℚ) (h : 1 + r ≠ 0) (i : Nat) :
    pvTerm (B.map some) r i = some (some (B.getD i 0 / (1 + r) ^ i)) := by
  unfold pvTerm pyDiv
  rw [getD_map_some, if_neg (by simp [pow_ne_zero i h])]

lemma pvTerm_isSome (B : List PyFloat) (r : ℚ) (h : 1 + r ≠ 0) (i : Nat) :
    ∃ t, pvTerm B r i = some t := by
  unfold pvTerm pyDiv
  rw [if_neg (by simp [pow_ne_zero i h])]
  cases B.getD i (some 0) <;> exact ⟨_, rfl⟩

lemma foldl_pvStep_real (B : List ℚ) (r : ℚ) (h : 1 + r ≠ 0) (n : Nat) :
    ∀ a : ℚ,
      (List.range n).foldl (pvStep (B.map some) r) (some (some a)) =
        some (some (a + ∑ i ∈ Finset.range n, B.getD i 0 / (1 + r) ^ i)) := by
  induction n with
  | zero => intro a; simp
  | succ n ih =>
    intro a
    rw [List.range_succ, List.foldl_append, ih a, List.foldl_cons, List.foldl_nil]
    simp [pvStep, pvTerm_map_some B r h, pyAdd, Finset.sum_range_succ, add_assoc]

lemma pv_stream_eq_sum (B : List ℚ) (r : ℚ) (h : 1 + r ≠ 0) :
    pv_stream (B.map some) r =
      some (some (∑ i ∈ Finset.range B.length, B.getD i 0 / (1 + r) ^ i)) := by
  unfold pv_stream
  rw [List.length_map]
  simpa using foldl_pvStep_real B r h B.length 0

lemma foldl_pvStep_isSome (B : List PyFloat) (r : ℚ) (h : 1 + r ≠ 0) :
    ∀ (l : List Nat) (a : PyFloat), ∃ v, l.foldl (pvStep B r) (some a) = some v := by
  intro l
  induction l with
  | nil => exact fun a => ⟨a, rfl⟩
  | cons i l ih =>
    intro a
    obtain ⟨t, ht⟩ := pvTerm_isSome B r h i
    rw [List.foldl_cons, show pvStep B r (some a) i = some (pyAdd a t) by simp [pvStep, ht]]
    exact ih (pyAdd a t)

lemma pv_stream_isSome (B : List PyFloat) (r : ℚ) (h : 1 + r ≠ 0) :
    ∃ v, pv_stream B r = some v :=
  foldl_pvStep_isSome B r h _ _

/-! ### Claims about `pv_stream` (C1, C7, C8) -/

/-- C1: for every finite sequence of per-period net benefits `B` and every
discount rate `r ≥ 0`, `pv_stream(B, r)` returns (without raising) the sum
over `i` of `B[i] / (1+r)^i`. -/
theorem C1_pv_stream_returns_discounted_sum (B : List ℚ) (r : ℚ) (hr : 0 ≤ r) :
    pv_stream (B.map some) r =
      some (some (∑ i ∈ Finset.range B.length, B.getD i 0 / (1 + r) ^ i)) :=
  pv_stream_eq_sum B r (by positivity)

/-- Witness for C1 at the spec's own test vector `B = [100,100,100,100]`,
`r = 0`, where the sum is 400. -/
theorem C1_pv_stream_returns_discounted_sum_witness :
    (0 : ℚ) ≤ 0 ∧ pv_stream ([100, 100, 100, 100].map some) 0 = some (some 400) :=
  ⟨le_rfl, by
    rw [C1_pv_stream_returns_discounted_sum [100, 100, 100, 100] 0 le_rfl]
    norm_num [Finset.sum_range_succ]⟩

/-- C8: the present value of the one-element stream `[B0]` is `B0` for every
rate `r` — the period-0 term is divided by `(1+r)^0 = 1`, so this holds with
no restriction on `r` at all. -/
theorem C8_single_period_undiscounted (B0 r : ℚ) :
    pv_stream [some B0] r = some (some B0) := by
  unfold pv_stream
  simp [pvStep, pvTerm, pyDiv, pyAdd, List.range_succ]

/-- C7 counterexample: at `r = -1` (so `1 + r = 0`) the all-zero two-period
stream does not give PV 0: Python raises `ZeroDivisionError` on the term
`0.0 / (1 + r) ** 1` (a zero divisor raises even with a zero numerator), so
`pv_stream` returns no value at all.  The claim's "no restriction on r" is
therefore wrong. -/
theorem C7_counterexample_rate_minus_one :
    pv_stream ([0, 0].map some) (-1 : ℚ) = none := by
  unfold pv_stream
  rw [show List.range ([(0 : ℚ), 0].map some).length = [0, 1] from rfl]
  norm_num [pvStep, pvTerm, pyDiv, pyAdd]

/-- C7 as amended: for every rate `r` with `1 + r ≠ 0` (all that the
counterexample forces; the app's sliders allow only `0 ≤ r ≤ 0.3`), the PV
of an all-zero stream of any length is 0. -/
theorem C7_zero_stream_gives_zero (B : List ℚ) (r : ℚ) (h : 1 + r ≠ 0)
    (hB : ∀ x ∈ B, x = 0) :
    pv_stream (B.map some) r = some (some 0) := by
  rw [pv_stream_eq_sum B r h]
  refine congrArg _ (congrArg _ (Finset.sum_eq_zero fun i hi => ?_))
  rw [List.getD_eq_getElem B 0 (by simpa using hi), hB _ (List.getElem_mem _), zero_div]

/-- Witness for C7's amended claim at `B = [0,0]`, `r = 1`. -/
theorem C7_zero_stream_gives_zero_witness :
    (1 + (1 : ℚ) ≠ 0) ∧ (∀ x ∈ [(0 : ℚ), 0], x = 0) ∧
      pv_stream ([(0 : ℚ), 0].map some) 1 = some (some 0) :=
  ⟨by norm_num, by simp, C7_zero_stream_gives_zero [0, 0] 1 (by norm_num) (by simp)⟩

/-! ### Lemmas about the resource solver -/

lemma resource_solver_err (a b mc r Q : ℚ) (hb : b ≤ 0) :
    resource_solver a b mc r Q = some SolverRes.err := by
  unfold resource_solver
  rw [if_pos hb]

lemma resource_solver_ok (a b mc r Q : ℚ) (hb : 0 < b) (h2 : 2 + r ≠ 0) (h1 : 1 + r ≠ 0) :
    resource_solver a b mc r Q =
      some (SolverRes.ok
        { q1 := (r * (a - mc) + b * Q) / (b * (2 + r))
          q2 := Q - (r * (a - mc) + b * Q) / (b * (2 + r))
          P1 := a - b * ((r * (a - mc) + b * Q) / (b * (2 + r)))
          P2 := a - b * (Q - (r * (a - mc) + b * Q) / (b * (2 + r)))
          lhs := a - b * ((r * (a - mc) + b * Q) / (b * (2 + r))) - mc
          rhs := (a - b * (Q - (r * (a - mc) + b * Q) / (b * (2 + r))) - mc) / (1 + r) }) := by
  have hb0 : ¬ b ≤ 0 := not_le.mpr hb
  have hd : ¬ b * (2 + r) = 0 := mul_ne_zero hb.ne' h2
  simp [resource_solver, pyDivQ, hb0, hd, h1]

/-! ### Claims about the resource solver (C3, C4) -/

/-- C3 counterexample: at `b = 1 > 0` and `r = -2` (so `1 + r = -1 ≠ 0`,
satisfying the claim's only proviso) the solver produces no outputs at all:
the closed form divides by `b * (2 + r) = 0` and Python raises
`ZeroDivisionError`. -/
theorem C3_counterexample_rate_minus_two :
    resource_solver 8 1 2 (-2) 20 = none := by
  norm_num [resource_solver, pyDivQ]

/-- C3 as amended: with the extra hypothesis `2 + r ≠ 0` forced by the
counterexample, the solver outputs the closed form `q1 = (r(a-mc) + bQ) /
(b(2+r))`, `q2 = Q - q1`, `P1 = a - b q1`, `P2 = a - b q2`, and these
satisfy `q1 + q2 = Q` and the dynamic-efficiency check
`P1 - mc = (P2 - mc) / (1 + r)` exactly over rational arithmetic. -/
theorem C3_solver_closed_form_and_check (a b mc r Q : ℚ)
    (hb : 0 < b) (h1 : 1 + r ≠ 0) (h2 : 2 + r ≠ 0) :
    ∃ out, resource_solver a b mc r Q = some (SolverRes.ok out) ∧
      out.q1 = (r * (a - mc) + b * Q) / (b * (2 + r)) ∧
      out.q2 = Q - out.q1 ∧
      out.P1 = a - b * out.q1 ∧
      out.P2 = a - b * out.q2 ∧
      out.q1 + out.q2 = Q ∧
      out.P1 - mc = (out.P2 - mc) / (1 + r) := by
  refine ⟨_, resource_solver_ok a b mc r Q hb h2 h1, rfl, rfl, rfl, rfl, by ring, ?_⟩
  have hb' : b ≠ 0 := hb.ne'
  field_simp
  ring

/-- Witness for C3's amended claim at the spec's example
`a = 8, b = 0.4, mc = 2, r = 0.10, Q = 20`. -/
theorem C3_solver_closed_form_and_check_witness :
    (0 : ℚ) < 2 / 5 ∧ 1 + (1 / 10 : ℚ) ≠ 0 ∧ 2 + (1 / 10 : ℚ) ≠ 0 ∧
      ∃ out, resource_solver 8 (2 / 5) 2 (1 / 10) 20 = some (SolverRes.ok out) ∧
        out.q1 = ((1 / 10) * (8 - 2) + (2 / 5) * 20) / ((2 / 5) * (2 + 1 / 10)) ∧
        out.q2 = 20 - out.q1 ∧
        out.P1 = 8 - (2 / 5) * out.q1 ∧
        out.P2 = 8 - (2 / 5) * out.q2 ∧
        out.q1 + out.q2 = 20 ∧
        out.P1 - 2 = (out.P2 - 2) / (1 + 1 / 10) :=
  ⟨by norm_num, by norm_num, by norm_num,
    C3_solver_closed_form_and_check 8 (2 / 5) 2 (1 / 10) 20
      (by norm_num) (by norm_num) (by norm_num)⟩

/-- C4 counterexample: the claim also asserts that for *every* `b > 0` the
solver reports no error and produces the solution; at `b = 2 > 0`, `r = -2`
the solver instead crashes with `ZeroDivisionError` (divisor `b * (2 + r) =
0`), producing neither the error report nor a solution. -/
theorem C4_counterexample_crash_with_positive_b :
    resource_solver 5 2 1 (-2) 10 = none := by
  norm_num [resource_solver, pyDivQ]

/-- C4 as amended: the `b must be > 0` error is reported exactly when
`b ≤ 0` — in that case nothing is divided by `b` and no solution outputs
are produced (the error branch computes nothing) — and for `b > 0` no such
error is reported; the solution is produced provided additionally
`2 + r ≠ 0` and `1 + r ≠ 0` (otherwise the solver raises instead). -/
theorem C4_error_exactly_for_nonpositive_b (a b mc r Q : ℚ) :
    (b ≤ 0 → resource_solver a b mc r Q = some SolverRes.err) ∧
    (0 < b → resource_solver a b mc r Q ≠ some SolverRes.err) ∧
    (0 < b → 2 + r ≠ 0 → 1 + r ≠ 0 →
      ∃ out, resource_solver a b mc r Q = some (SolverRes.ok out)) := by
  refine ⟨fun hb => resource_solver_err a b mc r Q hb, fun hb => ?_,
    fun hb h2 h1 => ⟨_, resource_solver_ok a b mc r Q hb h2 h1⟩⟩
  have hb0 : ¬ b ≤ 0 := not_le.mpr hb
  unfold resource_solver pyDivQ
  rw [if_neg hb0]
  by_cases hd : b * (2 + r) = 0
  · simp [hd]
  · by_cases h1 : 1 + r = 0
    · simp [hd, h1]
    · simp [hd, h1]

/-- Witness for C4's amended claim: the error branch at `b = -1 ≤ 0` and the
solution branch at `b = 3 > 0`, `r = 0.10`. -/
theorem C4_error_exactly_for_nonpositive_b_witness :
    resource_solver 8 (-1) 2 (1 / 10) 20 = some SolverRes.err ∧
      ∃ out, resource_solver 7 3 2 (1 / 10) 21 = some (SolverRes.ok out) :=
  ⟨(C4_error_exactly_for_nonpositive_b 8 (-1) 2 (1 / 10) 20).1 (by norm_num),
    (C4_error_exactly_for_nonpositive_b 7 3 2 (1 / 10) 21).2.2
      (by norm_num) (by norm_num) (by norm_num)⟩

/-! ### Shape lemmas for the column operations and the pipeline -/

lemma map_policy_of_map (f : FRow π → FRow π) (hf : ∀ row, (f row).Policy = row.Policy)
    (t : List (FRow π)) : (t.map f).map FRow.Policy = t.map FRow.Policy := by
  rw [List.map_map]
  exact List.map_congr_left fun a _ => hf a

lemma map_policy_coerce_PV_TNB (t : List (FRow π)) :
    (coerce_PV_TNB t).map FRow.Policy = t.map FRow.Policy :=
  map_policy_of_map (fun row => { row with PV_TNB := to_numeric row.PV_TNB }) (fun _ => rfl) t

lemma map_policy_coerce_B (t : List (FRow π)) :
    (coerce_B t).map FRow.Policy = t.map FRow.Policy :=
  map_policy_of_map
    (fun row => { row with B0 := to_numeric row.B0, B1 := to_numeric row.B1,
                           B2 := to_numeric row.B2, B3 := to_numeric row.B3 })
    (fun _ => rfl) t

lemma map_policy_coerce_Prob (t : List (FRow π)) :
    (coerce_Prob t).map FRow.Policy = t.map FRow.Policy :=
  map_policy_of_map (fun row => { row with Prob := to_numeric row.Prob }) (fun _ => rfl) t

lemma map_policy_assign_Weighted (t : List (FRow π)) :
    (assign_Weighted t).map FRow.Policy = t.map FRow.Policy :=
  map_policy_of_map
    (fun row =>
      { row with
          Weighted_PV_TNB :=
            some (cellOf (pyMul (cellFloat row.Prob) (cellFloat row.PV_TNB))) })
    (fun _ => rfl) t

lemma assign_PV_TNB_isSome (t : List (FRow π)) (r : ℚ) (h : 1 + r ≠ 0) :
    ∃ t', assign_PV_TNB t r = some t' := by
  induction t with
  | nil => exact ⟨[], rfl⟩
  | cons row rest ih =>
    obtain ⟨v, hv⟩ : ∃ v, pvRow row r = some v := pv_stream_isSome _ r h
    obtain ⟨rest', hrest⟩ := ih
    exact ⟨{ row with PV_TNB := cellOf v } :: rest', by simp [assign_PV_TNB, hv, hrest]⟩

lemma assign_PV_TNB_length (t t' : List (FRow π)) (r : ℚ)
    (hs : assign_PV_TNB t r = some t') : t'.length = t.length := by
  induction t generalizing t' with
  | nil =>
    simp only [assign_PV_TNB, Option.some.injEq] at hs
    simp [← hs]
  | cons row rest ih =>
    cases hv : pvRow row r with
    | none => simp [assign_PV_TNB, hv] at hs
    | some v =>
      cases hrest : assign_PV_TNB rest r with
      | none => simp [assign_PV_TNB, hv, hrest] at hs
      | some rest' =>
        simp [assign_PV_TNB, hv, hrest] at hs
        rw [← hs]
        simp [ih rest' hrest]

lemma assign_PV_TNB_policy (t t' : List (FRow π)) (r : ℚ)
    (hs : assign_PV_TNB t r = some t') :
    t'.map FRow.Policy = t.map FRow.Policy := by
  induction t generalizing t' with
  | nil =>
    simp only [assign_PV_TNB, Option.some.injEq] at hs
    simp [← hs]
  | cons row rest ih =>
    cases hv : pvRow row r with
    | none => simp [assign_PV_TNB, hv] at hs
    | some v =>
      cases hrest : assign_PV_TNB rest r with
      | none => simp [assign_PV_TNB, hv, hrest] at hs
      | some rest' =>
        simp [assign_PV_TNB, hv, hrest] at hs
        rw [← hs]
        simp [ih rest' hrest]

lemma assign_PV_TNB_get (t t' : List (FRow π)) (r : ℚ)
    (hs : assign_PV_TNB t r = some t')
    (k : Nat) (hk : k < t.length) (hk' : k < t'.length) :
    ∃ v, pvRow (t.get ⟨k, hk⟩) r = some v ∧
      t'.get ⟨k, hk'⟩ = { t.get ⟨k, hk⟩ with PV_TNB := cellOf v } := by
  induction t generalizing t' k with
  | nil => exact absurd hk (by simp)
  | cons row rest ih =>
    cases hv : pvRow row r with
    | none => simp [assign_PV_TNB, hv] at hs
    | some v =>
      cases hrest : assign_PV_TNB rest r with
      | none => simp [assign_PV_TNB, hv, hrest] at hs
      | some rest' =>
        simp [assign_PV_TNB, hv, hrest] at hs
        subst hs
        cases k with
        | zero => exact ⟨v, hv, rfl⟩
        | succ k =>
          exact ih rest' hrest k (by simpa using hk) (by simpa using hk')

lemma compute_direct_eq (df : List (FRow π)) (r : ℚ) :
    compute_policy_scores df r Mode.direct =
      some (scoresOf (assign_Weighted (coerce_Prob (coerce_PV_TNB df))),
        assign_Weighted (coerce_Prob (coerce_PV_TNB df))) := rfl

lemma compute_stream_eq (df : List (FRow π)) (r : ℚ) (t' : List (FRow π))
    (hs : assign_PV_TNB (coerce_B df) r = some t') :
    compute_policy_scores df r Mode.stream =
      some (scoresOf (assign_Weighted (coerce_Prob t')),
        assign_Weighted (coerce_Prob t')) := by
  simp [compute_policy_scores, hs]

lemma compute_stream_none (df : List (FRow π)) (r : ℚ)
    (hs : assign_PV_TNB (coerce_B df) r = none) :
    compute_policy_scores df r Mode.stream = none := by
  simp [compute_policy_scores, hs]

lemma compute_eq_some (df : List (FRow π)) (r : ℚ) (mode : Mode)
    (scores : List (ScoreRow π)) (work : List (FRow π))
    (hs : compute_policy_scores df r mode = some (scores, work)) :
    scores = scoresOf work ∧
      ∃ work1, work = assign_Weighted (coerce_Prob work1) ∧
        ((mode = Mode.direct ∧ work1 = coerce_PV_TNB df) ∨
          (mode = Mode.stream ∧ assign_PV_TNB (coerce_B df) r = some work1)) := by
  cases mode with
  | direct =>
    rw [compute_direct_eq df r] at hs
    simp only [Option.some.injEq, Prod.mk.injEq] at hs
    exact ⟨by rw [← hs.1, ← hs.2], coerce_PV_TNB df, hs.2.symm, Or.inl ⟨rfl, rfl⟩⟩
  | stream =>
    cases hw : assign_PV_TNB (coerce_B df) r with
    | none => rw [compute_stream_none df r hw] at hs; exact absurd hs (by simp)
    | some w1 =>
      rw [compute_stream_eq df r w1 hw] at hs
      simp only [Option.some.injEq, Prod.mk.injEq] at hs
      exact ⟨by rw [← hs.1, ← hs.2], w1, hs.2.symm, Or.inr ⟨rfl, rfl⟩⟩

lemma compute_isSome (df : List (FRow π)) (r : ℚ) (mode : Mode) (h : 1 + r ≠ 0) :
    ∃ scores work, compute_policy_scores df r mode = some (scores, work) := by
  cases mode with
  | direct => exact ⟨_, _, compute_direct_eq df r⟩
  | stream =>
    obtain ⟨t', ht'⟩ := assign_PV_TNB_isSome (coerce_B df) r h
    exact ⟨_, _, compute_stream_eq df r t' ht'⟩

lemma work_policy_eq (df : List (FRow π)) (r : ℚ) (mode : Mode)
    (scores : List (ScoreRow π)) (work : List (FRow π))
    (hs : compute_policy_scores df r mode = some (scores, work)) :
    work.map FRow.Policy = df.map FRow.Policy := by
  obtain ⟨-, work1, hw, hmode⟩ := compute_eq_some df r mode scores work hs
  subst hw
  rw [map_policy_assign_Weighted, map_policy_coerce_Prob]
  rcases hmode with ⟨-, rfl⟩ | ⟨-, hw1⟩
  · exact map_policy_coerce_PV_TNB df
  · rw [assign_PV_TNB_policy _ _ _ hw1, map_policy_coerce_B]

lemma work_weighted (t : List (FRow π)) :
    ∀ row ∈ assign_Weighted t,
      row.Weighted_PV_TNB =
        some (cellOf (pyMul (cellFloat row.Prob) (cellFloat row.PV_TNB))) := by
  intro row hrow
  simp only [assign_Weighted, List.mem_map] at hrow
  obtain ⟨o, -, rfl⟩ := hrow
  rfl

/-! ### Lemmas about `scoresOf` -/

lemma length_sortedScores (t : List (FRow π)) :
    (sortedScores t).length = (t.map FRow.Policy).dedup.length := by
  simp [sortedScores, aggregated, groupKeys, List.length_insertionSort]

lemma length_scoresOf (t : List (FRow π)) :
    (scoresOf t).length = (t.map FRow.Policy).dedup.length := by
  simp [scoresOf, List.enum_length, length_sortedScores]

lemma scoresOf_get (t : List (FRow π)) (k : Nat) (hk : k < (scoresOf t).length)
    (hk' : k < (sortedScores t).length) :
    (scoresOf t).get ⟨k, hk⟩ = { (sortedScores t).get ⟨k, hk'⟩ with Rank := k + 1 } := by
  simp [scoresOf, List.get_eq_getElem, List.getElem_map, List.getElem_enum]

lemma scoresOf_bound (t : List (FRow π)) (k : Nat) (hk : k < (scoresOf t).length) :
    k < (sortedScores t).length := by
  simpa [scoresOf, List.enum_length] using hk

lemma scoresOf_map_policy_perm (t : List (FRow π)) :
    ((scoresOf t).map ScoreRow.Policy).Perm ((t.map FRow.Policy).dedup) := by
  have h1 : (scoresOf t).map ScoreRow.Policy = (sortedScores t).map ScoreRow.Policy := by
    unfold scoresOf
    rw [List.map_map,
      show ScoreRow.Policy ∘ (fun p : Nat × ScoreRow π => { p.2 with Rank := p.1 + 1 }) =
        ScoreRow.Policy ∘ Prod.snd from rfl,
      ← List.map_map, List.enum_map_snd]
  rw [h1]
  refine ((List.perm_insertionSort descPV (aggregated t)).map ScoreRow.Policy).trans ?_
  have h2 : (aggregated t).map ScoreRow.Policy = groupKeys t := by
    unfold aggregated
    rw [List.map_map, show ScoreRow.Policy ∘ aggRow t = id from rfl, List.map_id]
  rw [h2]
  exact List.perm_insertionSort _ _

lemma scoresOf_agg_facts (t : List (FRow π)) (x : ScoreRow π) (hx : x ∈ scoresOf t) :
    x.PV_ETNB = nansum ((groupRows t x.Policy).map wval) ∧
    x.Prob_Sum = nansum ((groupRows t x.Policy).map (fun row => cellFloat row.Prob)) := by
  unfold scoresOf at hx
  rw [List.mem_map] at hx
  obtain ⟨p, hp, rfl⟩ := hx
  have hsnd : p.2 ∈ sortedScores t := by
    have := List.mem_map_of_mem Prod.snd hp
    rwa [List.enum_map_snd] at this
  have hagg : p.2 ∈ aggregated t :=
    ((List.perm_insertionSort descPV (aggregated t)).mem_iff).1 hsnd
  rw [aggregated, List.mem_map] at hagg
  obtain ⟨q, -, hqe⟩ := hagg
  rw [← hqe]
  exact ⟨rfl, rfl⟩

lemma sortedScores_sorted (t : List (FRow π)) : List.Sorted descPV (sortedScores t) :=
  List.sorted_insertionSort descPV (aggregated t)

lemma scoresOf_desc (t : List (FRow π)) (j k : Nat) (hjk : j ≤ k)
    (hj : j < (scoresOf t).length) (hk : k < (scoresOf t).length) :
    ((scoresOf t).get ⟨k, hk⟩).PV_ETNB ≤ ((scoresOf t).get ⟨j, hj⟩).PV_ETNB := by
  have hj' := scoresOf_bound t j hj
  have hk' := scoresOf_bound t k hk
  rw [scoresOf_get t j hj hj', scoresOf_get t k hk hk']
  rcases lt_or_eq_of_le hjk with hlt | rfl
  · exact (sortedScores_sorted t).rel_get_of_lt hlt
  · exact le_rfl

lemma scoresOf_rank (t : List (FRow π)) (k : Nat) (hk : k < (scoresOf t).length) :
    ((scoresOf t).get ⟨k, hk⟩).Rank = k + 1 := by
  rw [scoresOf_get t k hk (scoresOf_bound t k hk)]

/-! ### Stability of the descending sort on the groupby output -/

lemma orderedInsert_tieQ (x : ScoreRow π) (l : List (ScoreRow π))
    (hsort : List.Sorted descPV l) (hQ : List.Pairwise tieQ l)
    (hkey : ∀ y ∈ l, x.Policy < y.Policy) :
    List.Pairwise tieQ (List.orderedInsert descPV x l) := by
  induction l with
  | nil => simp
  | cons y l ih =>
    rw [List.orderedInsert]
    by_cases hxy : descPV x y
    · rw [if_pos hxy]
      refine List.pairwise_cons.2 ⟨?_, hQ⟩
      intro z hz
      have hzle : z.PV_ETNB ≤ x.PV_ETNB := by
        rcases List.mem_cons.1 hz with rfl | hz'
        · exact hxy
        · exact le_trans ((List.sorted_cons.1 hsort).1 z hz') hxy
      rcases lt_or_eq_of_le hzle with hlt | heq
      · exact Or.inl hlt
      · exact Or.inr ⟨heq, hkey z hz⟩
    · rw [if_neg hxy]
      have hyx : x.PV_ETNB < y.PV_ETNB := not_le.1 hxy
      refine List.pairwise_cons.2 ⟨?_, ?_⟩
      · intro z hz
        rcases (List.mem_orderedInsert descPV).1 hz with rfl | hz'
        · exact Or.inl hyx
        · exact (List.pairwise_cons.1 hQ).1 z hz'
      · exact ih (List.sorted_cons.1 hsort).2 (List.pairwise_cons.1 hQ).2
          (fun y' hy' => hkey y' (List.mem_cons_of_mem _ hy'))

lemma insertionSort_tieQ (l : List (ScoreRow π))
    (hl : List.Pairwise (fun x y : ScoreRow π => x.Policy < y.Policy) l) :
    List.Pairwise tieQ (List.insertionSort descPV l) := by
  induction l with
  | nil => simp
  | cons x l ih =>
    simp only [List.insertionSort]
    refine orderedInsert_tieQ x _ (List.sorted_insertionSort descPV l)
      (ih (List.pairwise_cons.1 hl).2) ?_
    intro y hy
    exact (List.pairwise_cons.1 hl).1 y ((List.perm_insertionSort descPV l).mem_iff.1 hy)

lemma groupKeys_sorted (t : List (FRow π)) : List.Sorted (· ≤ ·) (groupKeys t) :=
  List.sorted_insertionSort _ _

lemma groupKeys_nodup (t : List (FRow π)) : (groupKeys t).Nodup :=
  ((List.perm_insertionSort _ _).nodup_iff).2 (List.nodup_dedup _)

lemma groupKeys_strict (t : List (FRow π)) : List.Pairwise (· < ·) (groupKeys t) := by
  have hs := groupKeys_sorted t
  have hn := groupKeys_nodup t
  exact ((hs.and hn).imp fun h => lt_of_le_of_ne h.1 h.2)

lemma aggregated_keys_strict (t : List (FRow π)) :
    List.Pairwise (fun x y : ScoreRow π => x.Policy < y.Policy) (aggregated t) := by
  unfold aggregated
  rw [List.pairwise_map]
  exact groupKeys_strict t

lemma sortedScores_tieQ (t : List (FRow π)) : List.Pairwise tieQ (sortedScores t) :=
  insertionSort_tieQ (aggregated t) (aggregated_keys_strict t)

lemma scoresOf_tie_order (t : List (FRow π)) (j k : Nat) (hjk : j < k)
    (hj : j < (scoresOf t).length) (hk : k < (scoresOf t).length)
    (heq : ((scoresOf t).get ⟨j, hj⟩).PV_ETNB = ((scoresOf t).get ⟨k, hk⟩).PV_ETNB) :
    ((scoresOf t).get ⟨j, hj⟩).Policy < ((scoresOf t).get ⟨k, hk⟩).Policy := by
  have hj' := scoresOf_bound t j hj
  have hk' := scoresOf_bound t k hk
  rw [scoresOf_get t j hj hj'] at heq ⊢
  rw [scoresOf_get t k hk hk'] at heq ⊢
  have hQ := (List.pairwise_iff_getElem.1 (sortedScores_tieQ t)) j k hj' hk' hjk
  rcases hQ with hlt | ⟨-, hpol⟩
  · exact absurd hlt (by simp only [List.get_eq_getElem] at heq; rw [heq]; exact lt_irrefl _)
  · simpa [List.get_eq_getElem] using hpol

/-! ### Heap-model lemmas and the frame claim (C10) -/

lemma getD_set_ne_heap (h : Heap π) (i j : Nat) (t : Frame π) (hij : i ≠ j) :
    (h.set i t).getD j [] = h.getD j [] := by
  simp [List.getD_eq_getElem?_getD, List.getElem?_set_ne hij]

lemma getD_hmod_ne (h : Heap π) (i j : Nat) (f : Frame π → Frame π) (hij : i ≠ j) :
    (hmod h i f).getD j [] = h.getD j [] :=
  getD_set_ne_heap h i j _ hij

/-- C10: `compute_policy_scores` never mutates its input DataFrame.  On the
heap model, `work = df.copy()` allocates a fresh object and every column
assignment hits only that object, so for every heap, every valid input
reference, every rate and both modes, the frame the caller's reference
points to is identical before and after the call. -/
theorem C10_input_frame_unchanged (h : Heap π) (dfRef : Nat) (r : ℚ) (mode : Mode)
    (h' : Heap π) (scores : List (ScoreRow π)) (workRef : Nat)
    (href : dfRef < h.length)
    (hs : compute_policy_scores_heap h dfRef r mode = some (h', scores, workRef)) :
    h'.getD dfRef [] = h.getD dfRef [] := by
  have hne : h.length ≠ dfRef := (ne_of_lt href).symm
  cases mode with
  | direct =>
    simp [compute_policy_scores_heap] at hs
    obtain ⟨hh, -, -⟩ := hs
    rw [← hh, getD_hmod_ne _ _ _ _ hne, getD_hmod_ne _ _ _ _ hne,
      getD_hmod_ne _ _ _ _ hne, List.getD_append _ _ _ _ href]
  | stream =>
    simp [compute_policy_scores_heap] at hs
    split at hs
    · simp at hs
    · simp only [Option.some.injEq, Prod.mk.injEq] at hs
      obtain ⟨hh, -, -⟩ := hs
      rw [← hh, getD_hmod_ne _ _ _ _ hne, getD_hmod_ne _ _ _ _ hne,
        getD_set_ne_heap _ _ _ _ hne, getD_hmod_ne _ _ _ _ hne,
        List.getD_append _ _ _ _ href]

/-- Witness for C10 on a heap holding the one-row session frame
`frameC10`: after the call the frame at reference 0 is unchanged. -/
theorem C10_input_frame_unchanged_witness :
    0 < ([frameC10] : Heap Nat).length ∧
      heapC10out.getD 0 [] = ([frameC10] : Heap Nat).getD 0 [] :=
  ⟨by norm_num,
    C10_input_frame_unchanged [frameC10] 0 0 Mode.direct heapC10out [⟨1, 2, 1, 1⟩] 1
      (by norm_num)
      (by norm_num [compute_policy_scores_heap, hmod, frameC10, heapC10out, coerce_PV_TNB,
        coerce_Prob, assign_Weighted, scoresOf, sortedScores, aggregated, groupKeys, aggRow,
        groupRows, nansum, wval, to_numeric, cellFloat, cellOf, pyMul, descPV,
        List.insertionSort, List.orderedInsert, List.dedup_cons_of_not_mem,
        List.dedup_cons_of_mem, List.enum, List.enumFrom, List.filter, List.filterMap_cons,
        List.filterMap_nil, List.sum_cons, List.sum_nil, List.set])⟩

/-! ### Claim C9: the Rank column is exactly 1..N -/

/-- C9: for every input table, rate and mode, the `Rank` column of the
scores table returned by `compute_policy_scores` is exactly the sequence
`1, 2, ..., N`, where `N` is the number of distinct `Policy` values of the
input — each rank once, no gaps, no duplicates (`Rank` is
`np.arange(1, len(scores) + 1)` over the `N` groupby rows, whatever the
`PV_ETNB` values are). -/
theorem C9_rank_column_is_one_to_N (df : List (FRow π)) (r : ℚ) (mode : Mode)
    (scores : List (ScoreRow π)) (work : List (FRow π))
    (hs : compute_policy_scores df r mode = some (scores, work)) :
    scores.map ScoreRow.Rank = List.range' 1 ((df.map FRow.Policy).dedup.length) := by
  have hpol := work_policy_eq df r mode scores work hs
  obtain ⟨rfl, -⟩ := compute_eq_some df r mode scores work hs
  have h1 : (scoresOf work).map ScoreRow.Rank =
      (List.range (sortedScores work).length).map (fun n => n + 1) := by
    unfold scoresOf
    rw [List.map_map,
      show ScoreRow.Rank ∘ (fun p : Nat × ScoreRow π => { p.2 with Rank := p.1 + 1 }) =
        (fun n => n + 1) ∘ Prod.fst from rfl,
      ← List.map_map, List.enum_map_fst]
  rw [h1, length_sortedScores, hpol, List.range'_eq_map_range]
  exact List.map_congr_left fun a _ => Nat.add_comm a 1

/-- Witness for C9 on `tableC9`, a table with two distinct policies all of
whose numeric entries are missing: the Rank column is still `[1, 2]`. -/
theorem C9_rank_column_is_one_to_N_witness :
    compute_policy_scores tableC9 0 Mode.direct = some (scoresC9, workC9) ∧
      scoresC9.map ScoreRow.Rank = List.range' 1 ((tableC9.map FRow.Policy).dedup.length) :=
  ⟨by norm_num [compute_policy_scores, coerce_PV_TNB, coerce_Prob, assign_Weighted, scoresOf,
      sortedScores, aggregated, groupKeys, aggRow, groupRows, nansum, wval, to_numeric,
      cellFloat, cellOf, pyMul, descPV, List.insertionSort, List.orderedInsert,
      List.dedup_cons_of_not_mem, List.dedup_cons_of_mem, List.enum, List.enumFrom,
      List.filter, List.filterMap_cons, List.filterMap_nil, List.sum_cons, List.sum_nil,
      tableC9, scoresC9, workC9],
    C9_rank_column_is_one_to_N tableC9 0 Mode.direct scoresC9 workC9
      (by norm_num [compute_policy_scores, coerce_PV_TNB, coerce_Prob, assign_Weighted, scoresOf,
        sortedScores, aggregated, groupKeys, aggRow, groupRows, nansum, wval, to_numeric,
        cellFloat, cellOf, pyMul, descPV, List.insertionSort, List.orderedInsert,
        List.dedup_cons_of_not_mem, List.dedup_cons_of_mem, List.enum, List.enumFrom,
        List.filter, List.filterMap_cons, List.filterMap_nil, List.sum_cons, List.sum_nil,
        tableC9, scoresC9, workC9])⟩

/-! ### Claim C6: tie-breaking among equal PV_ETNB values -/

/-- C6 counterexample: on `tableC6` policy 2 appears first in the input and
ties with policy 1 (both PV(ETNB) = 7), yet the scores table lists policy 1
first (Rank 1) and policy 2 second (Rank 2).  The relative order of tied
policies is *not* their order of first appearance in the input table: the
groupby step has already reordered the policies by ascending key before the
stable sort sees them. -/
theorem C6_counterexample_ties_not_input_order :
    (compute_policy_scores tableC6 0 Mode.direct).map
        (fun p => p.1.map (fun s => (s.Policy, s.PV_ETNB, s.Rank))) =
      some [(1, 7, 1), (2, 7, 2)] ∧
    (tableC6.map FRow.Policy).dedup = [2, 1] := by
  constructor
  · norm_num [compute_policy_scores, coerce_PV_TNB, coerce_Prob, assign_Weighted, scoresOf,
      sortedScores, aggregated, groupKeys, aggRow, groupRows, nansum, wval, to_numeric,
      cellFloat, cellOf, pyMul, descPV, List.insertionSort, List.orderedInsert,
      List.dedup_cons_of_not_mem, List.dedup_cons_of_mem, List.enum, List.enumFrom,
      List.filter, List.filterMap_cons, List.filterMap_nil, List.sum_cons, List.sum_nil,
      tableC6]
  · norm_num [tableC6, List.dedup_cons_of_not_mem, List.dedup_cons_of_mem]

/-- C6 as amended: whenever two policies have equal `PV_ETNB`, their
relative order (and hence their Rank values) is the *groupby key order*:
strictly ascending `Policy` keys (alphabetical for string labels), which in
general differs from the order of first appearance in the input table.
(This uses the stable model of `sort_values`, valid for the small frames
the app builds.) -/
theorem C6_ties_in_ascending_key_order (df : List (FRow π)) (r : ℚ) (mode : Mode)
    (scores : List (ScoreRow π)) (work : List (FRow π))
    (hs : compute_policy_scores df r mode = some (scores, work))
    (j k : Nat) (hj : j < scores.length) (hk : k < scores.length) (hjk : j < k)
    (heq : (scores.get ⟨j, hj⟩).PV_ETNB = (scores.get ⟨k, hk⟩).PV_ETNB) :
    (scores.get ⟨j, hj⟩).Policy < (scores.get ⟨k, hk⟩).Policy := by
  obtain ⟨hsc, -⟩ := compute_eq_some df r mode scores work hs
  subst hsc
  exact scoresOf_tie_order work j k hjk hj hk heq

/-- Witness for C6's amended claim on `tableC6`: the two rows tie on
PV(ETNB) and appear in ascending key order 1 < 2. -/
theorem C6_ties_in_ascending_key_order_witness :
    compute_policy_scores tableC6 0 Mode.direct = some (scoresC6, workC6) ∧
      (scoresC6.get ⟨0, by norm_num [scoresC6]⟩).PV_ETNB =
        (scoresC6.get ⟨1, by norm_num [scoresC6]⟩).PV_ETNB ∧
      (scoresC6.get ⟨0, by norm_num [scoresC6]⟩).Policy <
        (scoresC6.get ⟨1, by norm_num [scoresC6]⟩).Policy :=
  ⟨by norm_num [compute_policy_scores, coerce_PV_TNB, coerce_Prob, assign_Weighted, scoresOf,
      sortedScores, aggregated, groupKeys, aggRow, groupRows, nansum, wval, to_numeric,
      cellFloat, cellOf, pyMul, descPV, List.insertionSort, List.orderedInsert,
      List.dedup_cons_of_not_mem, List.dedup_cons_of_mem, List.enum, List.enumFrom,
      List.filter, List.filterMap_cons, List.filterMap_nil, List.sum_cons, List.sum_nil,
      tableC6, scoresC6, workC6],
    rfl,
    C6_ties_in_ascending_key_order tableC6 0 Mode.direct scoresC6 workC6
      (by norm_num [compute_policy_scores, coerce_PV_TNB, coerce_Prob, assign_Weighted, scoresOf,
        sortedScores, aggregated, groupKeys, aggRow, groupRows, nansum, wval, to_numeric,
        cellFloat, cellOf, pyMul, descPV, List.insertionSort, List.orderedInsert,
        List.dedup_cons_of_not_mem, List.dedup_cons_of_mem, List.enum, List.enumFrom,
        List.filter, List.filterMap_cons, List.filterMap_nil, List.sum_cons, List.sum_nil,
        tableC6, scoresC6, workC6])
      0 1 (by norm_num [scoresC6]) (by norm_num [scoresC6]) (by norm_num) rfl⟩

/-! ### Claim C5: non-numeric entries -/

lemma wval_assign_Weighted_nan (t : List (FRow π)) :
    ∀ row ∈ assign_Weighted t, cellFloat row.Prob = none → wval row = none := by
  intro row hrow hnan
  simp only [assign_Weighted, List.mem_map] at hrow
  obtain ⟨o, -, rfl⟩ := hrow
  have ho : cellFloat o.Prob = none := hnan
  unfold wval
  rw [show pyMul (cellFloat o.Prob) (cellFloat o.PV_TNB) = none by
    rw [ho]; cases cellFloat o.PV_TNB <;> rfl]
  rfl

/-- C5 counterexample: on `tableC5` (policy 7, one row with non-numeric
`Prob`, one row with `Prob = 1/2` and `PV_TNB = 10`) the aggregates do
*not* become missing: the groupby sums skip the missing value, and the
returned scores row is the fully numeric `PV_ETNB = 5`, `Prob_Sum = 1/2` —
the sum over the unaffected row only. -/
theorem C5_counterexample_aggregates_stay_numeric :
    (compute_policy_scores tableC5 0 Mode.direct).map Prod.fst =
      some [⟨7, 5, 1 / 2, 1⟩] := by
  norm_num [compute_policy_scores, coerce_PV_TNB, coerce_Prob, assign_Weighted, scoresOf,
    sortedScores, aggregated, groupKeys, aggRow, groupRows, nansum, wval, to_numeric,
    cellFloat, cellOf, pyMul, descPV, List.insertionSort, List.orderedInsert,
    List.dedup_cons_of_not_mem, List.dedup_cons_of_mem, List.enum, List.enumFrom,
    List.filter, List.filterMap_cons, List.filterMap_nil, List.sum_cons, List.sum_nil,
    tableC5]

/-- C5 as amended: for every input table and both modes (at an app rate
`r ≥ 0`), `compute_policy_scores` does not raise; non-numeric entries are
coerced to the missing value; a missing `Prob` makes the row's
`Weighted_PV_TNB` missing; and the per-policy aggregates `PV_ETNB` and
`Prob_Sum` are the *NaN-skipping* sums of the group's values — numeric
(the sum of the present values, 0 if none are present) rather than
missing/empty as the original claim said. -/
theorem C5_nonnumeric_coerced_and_skipped (df : List (FRow π)) (r : ℚ) (mode : Mode)
    (hr : 0 ≤ r) :
    (∃ scores work, compute_policy_scores df r mode = some (scores, work)) ∧
    (∀ s, to_numeric (Cell.txt s) = Cell.nan) ∧
    (∀ scores work, compute_policy_scores df r mode = some (scores, work) →
      (∀ k (hk : k < df.length) (hk' : k < work.length),
        (work.get ⟨k, hk'⟩).Prob = to_numeric ((df.get ⟨k, hk⟩).Prob)) ∧
      (∀ row ∈ work, cellFloat row.Prob = none → wval row = none) ∧
      (∀ s ∈ scores,
        s.PV_ETNB = nansum ((groupRows work s.Policy).map wval) ∧
        s.Prob_Sum = nansum ((groupRows work s.Policy).map fun row => cellFloat row.Prob))) := by
  refine ⟨compute_isSome df r mode (by positivity), fun _ => rfl, ?_⟩
  intro scores work hs
  obtain ⟨hsc, work1, hw, hmode⟩ := compute_eq_some df r mode scores work hs
  subst hsc
  subst hw
  refine ⟨?_, wval_assign_Weighted_nan _, fun s hsmem => scoresOf_agg_facts _ s hsmem⟩
  intro k hk hk'
  rcases hmode with ⟨-, rfl⟩ | ⟨-, hw1⟩
  · simp [assign_Weighted, coerce_Prob, coerce_PV_TNB, List.get_eq_getElem, List.getElem_map]
  · have hkB : k < (coerce_B df).length := by simpa [coerce_B] using hk
    have hk1 : k < work1.length := by
      rw [assign_PV_TNB_length _ _ _ hw1]
      exact hkB
    obtain ⟨v, -, hget⟩ := assign_PV_TNB_get _ _ _ hw1 k hkB hk1
    simp only [List.get_eq_getElem] at hget ⊢
    simp only [assign_Weighted, coerce_Prob, List.getElem_map]
    rw [hget]
    simp [coerce_B, List.getElem_map]

/-- Witness for C5's amended claim at `df = tableC5`, `r = 0`, direct mode. -/
theorem C5_nonnumeric_coerced_and_skipped_witness :
    (0 : ℚ) ≤ 0 ∧
    ((∃ scores work, compute_policy_scores tableC5 0 Mode.direct = some (scores, work)) ∧
    (∀ s, to_numeric (Cell.txt s) = Cell.nan) ∧
    (∀ scores work, compute_policy_scores tableC5 0 Mode.direct = some (scores, work) →
      (∀ k (hk : k < tableC5.length) (hk' : k < work.length),
        (work.get ⟨k, hk'⟩).Prob = to_numeric ((tableC5.get ⟨k, hk⟩).Prob)) ∧
      (∀ row ∈ work, cellFloat row.Prob = none → wval row = none) ∧
      (∀ s ∈ scores,
        s.PV_ETNB = nansum ((groupRows work s.Policy).map wval) ∧
        s.Prob_Sum = nansum ((groupRows work s.Policy).map fun row => cellFloat row.Prob)))) :=
  ⟨le_rfl, C5_nonnumeric_coerced_and_skipped tableC5 0 Mode.direct le_rfl⟩

/-! ### Claim C2: the ranking pipeline -/

/-- C2: for every input table (each row carrying a Policy, a Prob and a
PV_TNB — entered directly or computed by `pv_stream` from B0..B3 at rate
`r`, depending on the mode), `compute_policy_scores` computes
`Weighted_PV_TNB = Prob * PV_TNB` on every row of the working table, groups
rows by Policy (one scores row per distinct input policy), sums
Weighted_PV_TNB into PV_ETNB and Prob into Prob_Sum per policy, sorts the
policies in descending order of PV_ETNB, and gives the k-th row of that
order Rank k; in particular, on the concrete two-policy table with PV_ETNB
values 50 and 30, the policy with 50 receives Rank 1. -/
theorem C2_weighted_grouped_sorted_ranked (df : List (FRow π)) (r : ℚ) (mode : Mode)
    (scores : List (ScoreRow π)) (work : List (FRow π))
    (hs : compute_policy_scores df r mode = some (scores, work)) :
    (∀ row ∈ work, row.Weighted_PV_TNB =
        some (cellOf (pyMul (cellFloat row.Prob) (cellFloat row.PV_TNB)))) ∧
    (mode = Mode.direct → ∀ k (hk : k < df.length) (hk' : k < work.length),
        (work.get ⟨k, hk'⟩).PV_TNB = to_numeric ((df.get ⟨k, hk⟩).PV_TNB)) ∧
    (mode = Mode.stream → ∀ k (hkB : k < (coerce_B df).length) (hk' : k < work.length),
        ∃ v, pvRow ((coerce_B df).get ⟨k, hkB⟩) r = some v ∧
          (work.get ⟨k, hk'⟩).PV_TNB = cellOf v) ∧
    ((scores.map ScoreRow.Policy).Perm ((df.map FRow.Policy).dedup)) ∧
    (∀ s ∈ scores,
        s.PV_ETNB = nansum ((groupRows work s.Policy).map wval) ∧
        s.Prob_Sum = nansum ((groupRows work s.Policy).map fun row => cellFloat row.Prob)) ∧
    (∀ j k (hj : j < scores.length) (hk : k < scores.length), j ≤ k →
        (scores.get ⟨k, hk⟩).PV_ETNB ≤ (scores.get ⟨j, hj⟩).PV_ETNB) ∧
    (∀ k (hk : k < scores.length), (scores.get ⟨k, hk⟩).Rank = k + 1) ∧
    compute_policy_scores tableC2 0 Mode.direct = some (scoresC2, workC2) := by
  have hpol := work_policy_eq df r mode scores work hs
  obtain ⟨hsc, work1, hw, hmode⟩ := compute_eq_some df r mode scores work hs
  subst hsc
  subst hw
  refine ⟨work_weighted _, ?_, ?_, ?_, fun s hsmem => scoresOf_agg_facts _ s hsmem,
    fun j k hj hk hjk => scoresOf_desc _ j k hjk hj hk,
    fun k hk => scoresOf_rank _ k hk, ?_⟩
  · intro hm k hk hk'
    rcases hmode with ⟨-, rfl⟩ | ⟨hst, -⟩
    · simp [assign_Weighted, coerce_Prob, coerce_PV_TNB, List.get_eq_getElem, List.getElem_map]
    · rw [hm] at hst
      exact Mode.noConfusion hst
  · intro hm k hkB hk'
    rcases hmode with ⟨hdi, -⟩ | ⟨-, hw1⟩
    · rw [hm] at hdi
      exact Mode.noConfusion hdi
    · have hk1 : k < work1.length := by
        rw [assign_PV_TNB_length _ _ _ hw1]
        exact hkB
      obtain ⟨v, hv, hget⟩ := assign_PV_TNB_get _ _ _ hw1 k hkB hk1
      refine ⟨v, hv, ?_⟩
      simp only [List.get_eq_getElem] at hget ⊢
      simp only [assign_Weighted, coerce_Prob, List.getElem_map]
      rw [hget]
  · have h := scoresOf_map_policy_perm (assign_Weighted (coerce_Prob work1))
    rwa [hpol] at h
  · norm_num [compute_policy_scores, coerce_PV_TNB, coerce_Prob, assign_Weighted, scoresOf,
      sortedScores, aggregated, groupKeys, aggRow, groupRows, nansum, wval, to_numeric,
      cellFloat, cellOf, pyMul, descPV, List.insertionSort, List.orderedInsert,
      List.dedup_cons_of_not_mem, List.dedup_cons_of_mem, List.enum, List.enumFrom,
      List.filter, List.filterMap_cons, List.filterMap_nil, List.sum_cons, List.sum_nil,
      tableC2, scoresC2, workC2]

/-- Witness for C2 at `df = tableC2`, `r = 0`, direct mode, whose computed
scores table `scoresC2` gives Rank 1 to the policy with PV(ETNB) 50. -/
theorem C2_weighted_grouped_sorted_ranked_witness :
    compute_policy_scores tableC2 0 Mode.direct = some (scoresC2, workC2) ∧
    ((∀ row ∈ workC2, row.Weighted_PV_TNB =
        some (cellOf (pyMul (cellFloat row.Prob) (cellFloat row.PV_TNB)))) ∧
    (Mode.direct = Mode.direct → ∀ k (hk : k < tableC2.length) (hk' : k < workC2.length),
        (workC2.get ⟨k, hk'⟩).PV_TNB = to_numeric ((tableC2.get ⟨k, hk⟩).PV_TNB)) ∧
    (Mode.direct = Mode.stream → ∀ k (hkB : k < (coerce_B tableC2).length)
        (hk' : k < workC2.length),
        ∃ v, pvRow ((coerce_B tableC2).get ⟨k, hkB⟩) 0 = some v ∧
          (workC2.get ⟨k, hk'⟩).PV_TNB = cellOf v) ∧
    ((scoresC2.map ScoreRow.Policy).Perm ((tableC2.map FRow.Policy).dedup)) ∧
    (∀ s ∈ scoresC2,
        s.PV_ETNB = nansum ((groupRows workC2 s.Policy).map wval) ∧
        s.Prob_Sum = nansum ((groupRows workC2 s.Policy).map fun row => cellFloat row.Prob)) ∧
    (∀ j k (hj : j < scoresC2.length) (hk : k < scoresC2.length), j ≤ k →
        (scoresC2.get ⟨k, hk⟩).PV_ETNB ≤ (scoresC2.get ⟨j, hj⟩).PV_ETNB) ∧
    (∀ k (hk : k < scoresC2.length), (scoresC2.get ⟨k, hk⟩).Rank = k + 1) ∧
    compute_policy_scores tableC2 0 Mode.direct = some (scoresC2, workC2)) :=
  ⟨by norm_num [compute_policy_scores, coerce_PV_TNB, coerce_Prob, assign_Weighted, scoresOf,
      sortedScores, aggregated, groupKeys, aggRow, groupRows, nansum, wval, to_numeric,
      cellFloat, cellOf, pyMul, descPV, List.insertionSort, List.orderedInsert,
      List.dedup_cons_of_not_mem, List.dedup_cons_of_mem, List.enum, List.enumFrom,
      List.filter, List.filterMap_cons, List.filterMap_nil, List.sum_cons, List.sum_nil,
      tableC2, scoresC2, workC2],
    C2_weighted_grouped_sorted_ranked tableC2 0 Mode.direct scoresC2 workC2
      (by norm_num [compute_policy_scores, coerce_PV_TNB, coerce_Prob, assign_Weighted, scoresOf,
        sortedScores, aggregated, groupKeys, aggRow, groupRows, nansum, wval, to_numeric,
        cellFloat, cellOf, pyMul, descPV, List.insertionSort, List.orderedInsert,
        List.dedup_cons_of_not_mem, List.dedup_cons_of_mem, List.enum, List.enumFrom,
        List.filter, List.filterMap_cons, List.filterMap_nil, List.sum_cons, List.sum_nil,
        tableC2, scoresC2, workC2])⟩

end Greenlight
